import Mathlib

/-!
Verification development for the proto-sync repository.

The development shallowly embeds the two core components of the repository:

* the go.mod annotation parser `ParseProtobufLibraries`
  (internal/infrastructure/gomod_repository.go), embedded as pure functions
  over the scanner's line sequence; and
* the sync orchestration service `ProtoSyncServiceImpl`
  (internal/app service file: `ValidateConfig`, `Sync`, `processRepository`,
  `dryRunRepository`, `copySpecificFile`, `copyAllProtoFiles`), embedded as
  pure functions over an explicit collaborator environment `Env`
  (the `FileRepository`, `GoModRepository` and `BufRepository` interfaces),
  recording every collaborator call in an event trace.

Logging calls (`domain.Logger`) and direct `fmt.Printf` output have no
observable effect on the returned values and are not recorded.
-/

set_option maxRecDepth 8192

deriving instance DecidableEq for Except

namespace ProtoSync

/-! ## Data model (internal/domain entities) -/

/-- Repository represents a protobuf repository (domain entity `Repository`). -/
structure Repository where
  name : String
  version : String
  url : String
deriving DecidableEq, Repr

/-- ProtoFile represents a protobuf file (domain entity `ProtoFile`).
`size` and `modifiedTime` model the Go `Size int64` / `ModifiedTime time.Time`
fields; they are populated only by directory listings and never read by the
orchestrator, so the time is modelled as a natural number of nanoseconds. -/
structure ProtoFile where
  name : String
  path : String
  size : Int := 0
  modifiedTime : Nat := 0
deriving DecidableEq, Repr

/-- SyncConfig represents the configuration for syncing proto files
(domain entity `SyncConfig`; the `ListVersions` flag is consumed only by the
CLI layer and is carried here unused, as in the Go struct). -/
structure SyncConfig where
  repositories : List Repository
  sourcePath : String
  targetPath : String
  bufYamlPath : String
  goModPath : String
  specificFile : String
  dryRun : Bool
  singleRepo : Bool
  listVersions : Bool := false
  specifiedVersion : String
deriving DecidableEq, Repr

/-- SyncResult represents the result of a sync operation (domain entity
`SyncResult`); the Go `Error error` field is modelled as an optional error
message string (`none` = nil error). -/
structure SyncResult where
  repository : Repository
  filesUpdated : List ProtoFile
  success : Bool
  error : Option String
deriving DecidableEq, Repr

/-- ModuleInfo represents information from buf.yaml (domain entity `ModuleInfo`). -/
structure ModuleInfo where
  name : String
  path : String
deriving DecidableEq, Repr

/-! ## String helpers

The go.mod parser uses `strings.TrimSpace`, `strings.ToLower`,
`strings.Contains`, `strings.HasPrefix`, `strings.TrimPrefix` and a regular
expression.  These are modelled on the character lists underlying Lean
strings.  The manifests involved are ASCII, so ASCII case folding models
`strings.ToLower` faithfully on all inputs the program distinguishes. -/

/-- Whitespace class of Go `unicode.IsSpace` restricted to Latin-1
(space, tab, newline, vertical tab, form feed, carriage return, NEL, NBSP);
used by `strings.TrimSpace`. -/
def goIsSpace (c : Char) : Bool :=
  c == ' ' || c == '\t' || c == '\n' || c == '\x0b' || c == '\x0c' || c == '\r' ||
    c == '\x85' || c == '\xa0'

/-- Whitespace class of the Go regexp escape `\s`, namely `[\t\n\f\r ]`. -/
def reIsSpace (c : Char) : Bool :=
  c == '\t' || c == '\n' || c == '\x0c' || c == '\r' || c == ' '

/-- Models `strings.TrimSpace`. -/
def goTrim (s : String) : String :=
  String.mk ((((s.data.dropWhile goIsSpace).reverse).dropWhile goIsSpace).reverse)

/-- Models `strings.ToLower` (ASCII case folding). -/
def asciiLower (s : String) : String :=
  String.mk (s.data.map Char.toLower)

/-- Models `strings.Contains s pat`. -/
def containsSub (s pat : String) : Bool :=
  decide (pat.data <:+: s.data)

/-- Models `strings.HasPrefix s pre`. -/
def hasPrefixStr (s pre : String) : Bool :=
  pre.data.isPrefixOf s.data

/-- Models `strings.TrimPrefix s pre` (the caller checks presence first, so
dropping `pre`'s character count is exact). -/
def trimPrefixStr (s pre : String) : String :=
  if hasPrefixStr s pre then String.mk (s.data.drop pre.data.length) else s

/-! ## The replace-directive regular expression

`gomod_repository.go` matches each candidate line against

  `^\s*replace\s+([^\s]+)\s+([^\s]+)\s*=>\s*([^\s]+)\s+([^\s]+)`

with `regexp.FindStringSubmatch`.  The functions below implement exactly this
pattern's leftmost-first (greedy, backtracking) semantics on the character
list of the already-trimmed line.  The only subpattern that can actually
backtrack is the second capture `([^\s]+)` followed by `\s*=>`: the maximal
non-space run is tried first, then successively shorter prefixes of it that
are immediately followed by a literal `=>` inside the run. -/

/-- Continuation of the match after the literal `=>`:
`\s*([^\s]+)\s+([^\s]+)`, returning the third and fourth captures. -/
def contAfterArrow (cs : List Char) : Option (List Char × List Char) :=
  let cs1 := cs.dropWhile reIsSpace
  let c := cs1.takeWhile (fun x => !reIsSpace x)
  let cs2 := cs1.dropWhile (fun x => !reIsSpace x)
  if c.isEmpty then none
  else
    match cs2 with
    | [] => none
    | ch :: _ =>
      if reIsSpace ch then
        let d := (cs2.dropWhile reIsSpace).takeWhile (fun x => !reIsSpace x)
        if d.isEmpty then none else some (c, d)
      else none

/-- Backtracking search for the second capture: try the split positions
`j = fuel, fuel - 1, …, 1` (longest first, as the greedy engine does); at
position `j` the capture is `r.take j`, which must be immediately followed in
`r` by the literal `=>`, after which `contAfterArrow` must succeed on the rest
of `r` glued back onto the text following the run `r`.  Position 0 is never
tried: the capture subpattern is `([^\s]+)`, so an empty capture cannot
match. -/
def tryArrowSplits (r rest : List Char) : Nat → Option (List Char × List Char × List Char)
  | 0 => none
  | fuel + 1 =>
    if fuel == 0 then none
    else if r.drop fuel == [] then tryArrowSplits r rest fuel
    else if (r.drop fuel).take 2 == ['=', '>'] then
      match contAfterArrow (r.drop (fuel + 2) ++ rest) with
      | some (c, d) => some (r.take fuel, c, d)
      | none => tryArrowSplits r rest fuel
    else tryArrowSplits r rest fuel

/-- Full match of the replace-directive pattern against a line (given as a
character list), returning the four captures (local name, local version,
remote path, remote version) or `none`.  The `^` anchor together with the
fact that the scrutinised line was already trimmed means only a match at the
start of the line is possible. -/
def matchReplaceChars (cs0 : List Char) : Option (List Char × List Char × List Char × List Char) :=
  let cs := cs0.dropWhile reIsSpace
  if ("replace".data).isPrefixOf cs then
    let cs1 := cs.drop 7
    match cs1 with
    | [] => none
    | c1 :: _ =>
      if reIsSpace c1 then
        let cs2 := cs1.dropWhile reIsSpace
        let a := cs2.takeWhile (fun x => !reIsSpace x)
        let cs3 := cs2.dropWhile (fun x => !reIsSpace x)
        if a.isEmpty then none
        else
          match cs3 with
          | [] => none
          | c3 :: _ =>
            if reIsSpace c3 then
              let cs4 := cs3.dropWhile reIsSpace
              let r := cs4.takeWhile (fun x => !reIsSpace x)
              let rest := cs4.dropWhile (fun x => !reIsSpace x)
              if r.isEmpty then none
              else
                let afterSp := rest.dropWhile reIsSpace
                let case1 :=
                  if afterSp.take 2 == ['=', '>'] then
                    (contAfterArrow (afterSp.drop 2)).map (fun p => (r, p.1, p.2))
                  else none
                match case1 with
                | some (b, c, d) => some (a, b, c, d)
                | none =>
                  (tryArrowSplits r rest r.length).map (fun p => (a, p.1, p.2.1, p.2.2))
            else none
      else none
  else none

/-! ## ParseProtobufLibraries (gomod_repository.go lines 31-101) -/

/-- Builds the `domain.Repository` from the third and fourth captures
(gomod_repository.go lines 66-78): strip a `github.com/` prefix if present,
then prepend `github.com/` to form the name and `https://github.com/` to form
the URL. -/
def mkRepository (remoteRepo remoteVersion : String) : Repository :=
  let repoPath := trimPrefixStr remoteRepo "github.com/"
  { name := "github.com/" ++ repoPath
    version := remoteVersion
    url := "https://github.com/" ++ repoPath }

/-- Parses one trimmed line as a replace directive, yielding a repository
exactly when the regex matches (`len(matches) == 5`). -/
def parseReplaceDirective (line : String) : Option Repository :=
  (matchReplaceChars line.data).map
    (fun m => mkRepository (String.mk m.2.2.1) (String.mk m.2.2.2))

/-- Marker test on a trimmed line (gomod_repository.go line 51):
`strings.Contains(strings.ToLower(line), "// protobuf libraries")`. -/
def isMarkerTrimmed (line : String) : Bool :=
  containsSub (asciiLower line) "// protobuf libraries"

/-- Section-ending test on a trimmed line (gomod_repository.go line 59):
a blank line, or a comment line that does not mention "protobuf"
(case-insensitively). -/
def isSectionEnd (line : String) : Bool :=
  line == "" || (hasPrefixStr line "//" && !containsSub (asciiLower line) "protobuf")

/-- Scan of the lines after the marker (the `foundComment` phase of the loop,
gomod_repository.go lines 57-83).  The marker test is re-applied first on
every line because the marker branch of the Go loop `continue`s even when
`foundComment` is already set. -/
def scanDirectives : List String → List Repository
  | [] => []
  | l :: rest =>
    let line := goTrim l
    if isMarkerTrimmed line then scanDirectives rest
    else if isSectionEnd line then []
    else
      match parseReplaceDirective line with
      | some repo => repo :: scanDirectives rest
      | none => scanDirectives rest

/-- Scan for the marker line (the `!foundComment` phase of the loop),
returning the lines after the first marker line, or `none` if the marker
never occurs. -/
def linesAfterMarker : List String → Option (List String)
  | [] => none
  | l :: rest =>
    if isMarkerTrimmed (goTrim l) then some rest else linesAfterMarker rest

/-- Error cases of `ParseProtobufLibraries` in the pure model: only the
marker-not-found error (gomod_repository.go lines 90-92).  The file-open and
scanner I/O errors concern the filesystem adapter, not the parsing logic, and
are outside the pure text model. -/
inductive GoModError where
  | markerNotFound
deriving DecidableEq, Repr

/-- ParseProtobufLibraries over the scanner's line sequence
(gomod_repository.go lines 31-101): find the marker line, then collect every
replace directive up to the first section-ending line; fail exactly when the
marker is never seen.  An empty directive list is a success (lines 94-96 only
log a warning). -/
def parseProtobufLibraries (lines : List String) : Except GoModError (List Repository) :=
  match linesAfterMarker lines with
  | none => Except.error GoModError.markerNotFound
  | some rest => Except.ok (scanDirectives rest)

/-! ## The sync orchestration service (internal/app)

The service is embedded over an explicit collaborator environment `Env`
bundling the `FileRepository`, `GoModRepository` and `BufRepository`
interfaces it consumes.  Each collaborator invocation is recorded as an
`FsCall` event; every embedded function returns its event trace alongside its
value, in invocation order.  The `context.Context` threaded through `Sync` is
observed only by `DownloadModule` (via `exec.CommandContext`); it is modelled
by a function `cancelled : Nat → Bool` giving the cancellation status of the
context at the time source number `i` (0-based, in processing order) reaches
its download step — a download attempted under a cancelled context fails with
a context-canceled error. -/

/-- Collaborator invocations observable by the orchestrator. -/
inductive FsCall where
  | readFile (path : String)
  | writeFile (path : String)
  | copyFile (src dst : String)
  | createDir (path : String)
  | makeWritable (path : String)
  | fileExists (path : String)
  | listFiles (path pattern : String)
  | parseBufYaml (path : String)
  | parseGoMod (path : String)
  | downloadModule (name version : String)
  | getModulePath (name version : String)
deriving DecidableEq, Repr

/-- Filesystem write collaborator methods: `CopyFile`, `WriteFile`,
`CreateDir`, `MakeWritable`. -/
def isWriteCall : FsCall → Bool
  | FsCall.writeFile _ => true
  | FsCall.copyFile _ _ => true
  | FsCall.createDir _ => true
  | FsCall.makeWritable _ => true
  | _ => false

/-- Collaborator environment: the deterministic behaviour of the
`FileRepository`, `GoModRepository` and `BufRepository` interfaces for one
run.  Fallible Go methods return `Except String`, the error being the
message of the non-nil `error` value. -/
structure Env where
  fileExists : String → Bool
  listFiles : String → String → Except String (List ProtoFile)
  copyFile : String → String → Except String Unit
  createDir : String → Except String Unit
  makeWritable : String → Except String Unit
  parseBufYaml : String → Except String ModuleInfo
  parseGoMod : String → Except String (List Repository)
  downloadModule : String → String → Except String Unit
  getModulePath : String → String → Except String String

/-- Models `filepath.Join` for the clean relative path segments the service
composes (module path + source path + file name); `filepath.Join` on two
clean non-empty segments inserts a single separator, and drops an empty
segment. -/
def joinPath (a b : String) : String :=
  if a == "" then b else if b == "" then a else a ++ "/" ++ b

/-- Result of `ListFiles` with an ignored error (`availableFiles, _ := …`):
the nil slice on failure. -/
def listFilesOrNil (env : Env) (path pattern : String) : List ProtoFile :=
  match env.listFiles path pattern with
  | Except.ok fs => fs
  | Except.error _ => []

/-! ### ValidateConfig (service lines 34-61) -/

/-- ValidateConfig on a non-nil config: field checks in source order, then
existence of buf.yaml, then — only when no explicit repositories are
configured (Go `&&` short-circuit) — existence of go.mod.  Returns the
collaborator trace and the error message of the non-nil error, if any. -/
def validateConfigSome (env : Env) (config : SyncConfig) : List FsCall × Option String :=
  if config.bufYamlPath == "" then ([], some "buf.yaml path is required")
  else if config.goModPath == "" then ([], some "go.mod path is required")
  else if config.sourcePath == "" then ([], some "source path is required")
  else
    let e1 := FsCall.fileExists config.bufYamlPath
    if !env.fileExists config.bufYamlPath then
      ([e1], some ("buf.yaml file not found at: " ++ config.bufYamlPath))
    else if config.repositories.length == 0 then
      let e2 := FsCall.fileExists config.goModPath
      if !env.fileExists config.goModPath then
        ([e1, e2], some ("go.mod file not found at: " ++ config.goModPath))
      else ([e1, e2], none)
    else ([e1], none)

/-- ValidateConfig including the nil-config guard (service lines 35-37):
a nil config is rejected before any collaborator is consulted. -/
def validateConfig (env : Env) (config : Option SyncConfig) : List FsCall × Option String :=
  match config with
  | none => ([], some "config cannot be nil")
  | some c => validateConfigSome env c

/-! ### Per-repository processing (service lines 132-314) -/

/-- dryRunRepository (service lines 193-236): always returns a successful
result with a nil error; the only collaborator calls are the module-path
resolution and read-only existence/listing queries used to print the
preview. -/
def dryRunRepository (env : Env) (repo : Repository) (config : SyncConfig) :
    List FsCall × SyncResult :=
  let result : SyncResult :=
    { repository := repo, filesUpdated := [], success := true, error := none }
  let e1 := FsCall.getModulePath repo.name repo.version
  match env.getModulePath repo.name repo.version with
  | Except.error _ => ([e1], result)
  | Except.ok modulePath =>
    let sourcePath := joinPath modulePath config.sourcePath
    let e2 := FsCall.fileExists sourcePath
    if env.fileExists sourcePath then
      if config.specificFile != "" then
        ([e1, e2, FsCall.fileExists (joinPath sourcePath config.specificFile)], result)
      else
        ([e1, e2, FsCall.listFiles sourcePath "*.proto"], result)
    else ([e1, e2], result)

/-- copySpecificFile (service lines 238-272): if the requested file is absent
from the source directory the error enumerates the names of the `*.proto`
files found there (listing errors ignored); otherwise a pre-existing target
file is made writable and the file is copied. -/
def copySpecificFile (env : Env) (sourcePath targetPath fileName : String) :
    List FsCall × Except String ProtoFile :=
  let sourceFile := joinPath sourcePath fileName
  let targetFile := joinPath targetPath fileName
  let e1 := FsCall.fileExists sourceFile
  if !env.fileExists sourceFile then
    let fileNames := (listFilesOrNil env sourcePath "*.proto").map ProtoFile.name
    ([e1, FsCall.listFiles sourcePath "*.proto"],
     Except.error ("specific proto file not found: " ++ sourceFile ++
       "\nAvailable proto files: " ++ String.intercalate ", " fileNames))
  else
    let e2 := FsCall.fileExists targetFile
    let copyEv := FsCall.copyFile sourceFile targetFile
    let doCopy : List FsCall × Except String ProtoFile :=
      match env.copyFile sourceFile targetFile with
      | Except.error e => ([copyEv], Except.error ("failed to copy file: " ++ e))
      | Except.ok _ => ([copyEv], Except.ok { name := fileName, path := targetFile })
    if env.fileExists targetFile then
      match env.makeWritable targetFile with
      | Except.error e =>
        ([e1, e2, FsCall.makeWritable targetFile],
         Except.error ("failed to make target file writable: " ++ e))
      | Except.ok _ =>
        ([e1, e2, FsCall.makeWritable targetFile] ++ doCopy.1, doCopy.2)
    else ([e1, e2] ++ doCopy.1, doCopy.2)

/-- Copy loop of copyAllProtoFiles (service lines 295-306): copy each source
file into the target directory, stopping at the first failure.  Go returns
the partially copied list alongside the error, but the caller discards the
list whenever the error is non-nil, so the failure case carries only the
error. -/
def copyFilesLoop (env : Env) (targetPath : String) :
    List ProtoFile → List FsCall × Except String (List ProtoFile)
  | [] => ([], Except.ok [])
  | f :: rest =>
    let targetFile := joinPath targetPath f.name
    let ev := FsCall.copyFile f.path targetFile
    match env.copyFile f.path targetFile with
    | Except.error e => ([ev], Except.error ("failed to copy " ++ f.name ++ ": " ++ e))
    | Except.ok _ =>
      let tailRun := copyFilesLoop env targetPath rest
      (ev :: tailRun.1,
       tailRun.2.map (fun fs => { name := f.name, path := targetFile : ProtoFile } :: fs))

/-- copyAllProtoFiles (service lines 274-314): list the source files (no
files is a trivial success), make every pre-existing `*.proto` file in the
target directory writable (failures only logged), then run the copy loop. -/
def copyAllProtoFiles (env : Env) (sourcePath targetPath : String) :
    List FsCall × Except String (List ProtoFile) :=
  let le := FsCall.listFiles sourcePath "*.proto"
  match env.listFiles sourcePath "*.proto" with
  | Except.error e => ([le], Except.error ("failed to list proto files: " ++ e))
  | Except.ok [] => ([le], Except.ok [])
  | Except.ok sourceFiles =>
    let existing := listFilesOrNil env targetPath "*.proto"
    let wEvs := existing.map (fun f => FsCall.makeWritable f.path)
    let copyRun := copyFilesLoop env targetPath sourceFiles
    (le :: FsCall.listFiles targetPath "*.proto" :: (wEvs ++ copyRun.1), copyRun.2)

/-- processRepository (service lines 132-191): dry-run delegation, then
download (the only step that observes the context's cancellation status),
module-path resolution, source-directory check, target-directory creation,
and the specific-file or all-files copy. -/
def processRepository (env : Env) (cancelled : Bool) (repo : Repository)
    (config : SyncConfig) : List FsCall × SyncResult :=
  if config.dryRun then dryRunRepository env repo config
  else
    let fail (e : String) : SyncResult :=
      { repository := repo, filesUpdated := [], success := false, error := some e }
    let dEv := FsCall.downloadModule repo.name repo.version
    let downloadOutcome : Except String Unit :=
      if cancelled then Except.error "context canceled"
      else env.downloadModule repo.name repo.version
    match downloadOutcome with
    | Except.error e => ([dEv], fail ("failed to download module: " ++ e))
    | Except.ok _ =>
      let mEv := FsCall.getModulePath repo.name repo.version
      match env.getModulePath repo.name repo.version with
      | Except.error e => ([dEv, mEv], fail ("failed to get module path: " ++ e))
      | Except.ok modulePath =>
        let sourcePath := joinPath modulePath config.sourcePath
        let sEv := FsCall.fileExists sourcePath
        if !env.fileExists sourcePath then
          ([dEv, mEv, sEv], fail ("source directory not found: " ++ sourcePath))
        else
          let tEv := FsCall.fileExists config.targetPath
          let dirStep : List FsCall × Option String :=
            if !env.fileExists config.targetPath then
              match env.createDir config.targetPath with
              | Except.error e =>
                ([tEv, FsCall.createDir config.targetPath],
                 some ("failed to create target directory: " ++ e))
              | Except.ok _ => ([tEv, FsCall.createDir config.targetPath], none)
            else ([tEv], none)
          match dirStep.2 with
          | some e => ([dEv, mEv, sEv] ++ dirStep.1, fail e)
          | none =>
            if config.specificFile != "" then
              let run := copySpecificFile env sourcePath config.targetPath config.specificFile
              match run.2 with
              | Except.error e => ([dEv, mEv, sEv] ++ dirStep.1 ++ run.1, fail e)
              | Except.ok file =>
                ([dEv, mEv, sEv] ++ dirStep.1 ++ run.1,
                 { repository := repo, filesUpdated := [file], success := true, error := none })
            else
              let run := copyAllProtoFiles env sourcePath config.targetPath
              match run.2 with
              | Except.error e => ([dEv, mEv, sEv] ++ dirStep.1 ++ run.1, fail e)
              | Except.ok files =>
                ([dEv, mEv, sEv] ++ dirStep.1 ++ run.1,
                 { repository := repo, filesUpdated := files, success := true, error := none })

/-! ### Sync (service lines 63-130) -/

/-- Version override (service lines 88-93): when `SpecifiedVersion` is
non-empty, rewrite every resolved repository's version to it. -/
def applyVersionOverride (v : String) (repos : List Repository) : List Repository :=
  if v == "" then repos else repos.map (fun r => { r with version := v })

/-- Single-repo restriction (service lines 96-99): keep only the first
repository when `SingleRepo` is set and more than one repository resolved. -/
def restrictSingleRepo (single : Bool) (repos : List Repository) : List Repository :=
  if single && repos.length > 1 then repos.take 1 else repos

/-- Repository-list determination (service lines 77-86): explicit
repositories when configured, otherwise the go.mod annotation parser
collaborator. -/
def determineRepositories (env : Env) (config : SyncConfig) :
    List FsCall × Except String (List Repository) :=
  if config.repositories.length == 0 then
    ([FsCall.parseGoMod config.goModPath], env.parseGoMod config.goModPath)
  else ([], Except.ok config.repositories)

/-- Pre-loop phase of Sync (service lines 64-99): validation, buf.yaml
parsing (writing the resolved target path into the config), repository-list
determination, version override, single-repo restriction.  None of these
steps observes the context, so this phase is independent of cancellation. -/
def resolveRun (env : Env) (config : SyncConfig) :
    List FsCall × Except String (SyncConfig × List Repository) :=
  let v := validateConfigSome env config
  match v.2 with
  | some e => (v.1, Except.error ("invalid configuration: " ++ e))
  | none =>
    let bEv := FsCall.parseBufYaml config.bufYamlPath
    match env.parseBufYaml config.bufYamlPath with
    | Except.error e => (v.1 ++ [bEv], Except.error ("failed to parse buf.yaml: " ++ e))
    | Except.ok moduleInfo =>
      let config1 := { config with targetPath := moduleInfo.path }
      let g := determineRepositories env config1
      match g.2 with
      | Except.error e =>
        (v.1 ++ bEv :: g.1, Except.error ("failed to parse go.mod: " ++ e))
      | Except.ok repos0 =>
        let repos1 := applyVersionOverride config1.specifiedVersion repos0
        let repos2 := restrictSingleRepo config1.singleRepo repos1
        (v.1 ++ bEv :: g.1, Except.ok (config1, repos2))

/-- Per-source loop of Sync (service lines 103-111): process the
repositories strictly in order, one at a time; the loop itself never
consults the context, so the outcome list always covers every resolved
repository.  `i` is the 0-based position of the next repository. -/
def syncLoop (env : Env) (cancelled : Nat → Bool) (config : SyncConfig) :
    Nat → List Repository → List FsCall × List SyncResult
  | _, [] => ([], [])
  | i, repo :: rest =>
    let pr := processRepository env (cancelled i) repo config
    let tailRun := syncLoop env cancelled config (i + 1) rest
    (pr.1 ++ tailRun.1, pr.2 :: tailRun.2)

/-- Sync (service lines 63-130).  The nil-config guard is the first check of
`ValidateConfig`, which `Sync` runs before touching any collaborator, so a
nil config yields an empty trace.  The success-count block (lines 113-127)
only chooses a log banner and does not affect the returned values. -/
def sync (env : Env) (cancelled : Nat → Bool) (configOpt : Option SyncConfig) :
    List FsCall × Except String (List SyncResult) :=
  match configOpt with
  | none => ([], Except.error "invalid configuration: config cannot be nil")
  | some config =>
    let res := resolveRun env config
    match res.2 with
    | Except.error e => (res.1, Except.error e)
    | Except.ok (config1, repos) =>
      let loopRun := syncLoop env cancelled config1 0 repos
      (res.1 ++ loopRun.1, Except.ok loopRun.2)

/-! ## Concrete sample environments and configurations (used by witnesses) -/

/-- Sample repository number one. -/
def repoOne : Repository :=
  { name := "github.com/acme/one", version := "v1.0.0", url := "https://github.com/acme/one" }

/-- Sample repository number two. -/
def repoTwo : Repository :=
  { name := "github.com/acme/two", version := "v2.0.0", url := "https://github.com/acme/two" }

/-- Environment in which every collaborator call succeeds; every directory
listing finds the single file `a.proto`, and module paths resolve under a
`cache/` root. -/
def envAll : Env :=
  { fileExists := fun _ => true
    listFiles := fun p _ => Except.ok [{ name := "a.proto", path := joinPath p "a.proto" }]
    copyFile := fun _ _ => Except.ok ()
    createDir := fun _ => Except.ok ()
    makeWritable := fun _ => Except.ok ()
    parseBufYaml := fun _ => Except.ok { name := "m", path := "out" }
    parseGoMod := fun _ => Except.ok []
    downloadModule := fun _ _ => Except.ok ()
    getModulePath := fun n v => Except.ok ("cache/" ++ n ++ "@" ++ v) }

/-- Real-mode configuration with two explicitly configured repositories. -/
def cfgTwo : SyncConfig :=
  { repositories := [repoOne, repoTwo], sourcePath := "schemas", targetPath := ""
    bufYamlPath := "buf.yaml", goModPath := "go.mod", specificFile := ""
    dryRun := false, singleRepo := false, specifiedVersion := "" }

/-- Cancellation signal that is observed from source number 1 onwards, i.e.
after the first source and before the second one starts. -/
def cancelAfterFirst : Nat → Bool := fun i => decide (1 ≤ i)

/-- Like `envAll`, but the download of `repoTwo` fails. -/
def envTwoDown : Env :=
  { envAll with
    downloadModule := fun n _ =>
      if n == "github.com/acme/two" then Except.error "network unreachable"
      else Except.ok () }

/-- Like `envAll`, but every directory listing finds `a.proto` and `b.proto`,
and the file `cache/github.com/acme/one@v1.0.0/schemas/c.proto` does not
exist. -/
def envMissing : Env :=
  { envAll with
    fileExists := fun p => !(p == "cache/github.com/acme/one@v1.0.0/schemas/c.proto")
    listFiles := fun p _ => Except.ok
      [{ name := "a.proto", path := joinPath p "a.proto" },
       { name := "b.proto", path := joinPath p "b.proto" }] }

/-- Expected outcome of the first sample repository under `envAll`. -/
def resOkOne : SyncResult :=
  { repository := repoOne,
    filesUpdated := [{ name := "a.proto", path := "out/a.proto" }],
    success := true, error := none }

/-- Expected outcome of the second sample repository when its download runs
under an already-cancelled context. -/
def resCancelTwo : SyncResult :=
  { repository := repoTwo, filesUpdated := [], success := false,
    error := some "failed to download module: context canceled" }

/-- Dry-run configuration used by the C2 witness. -/
def cfgDry : SyncConfig := { cfgTwo with dryRun := true }

/-! ## Parser lemmas -/

/-- Generic fact: the length of a `filterMap` is the count of elements on
which the function succeeds. -/
theorem filterMap_length_countP {α β : Type} (f : α → Option β) (l : List α) :
    (l.filterMap f).length = l.countP (fun x => (f x).isSome) := by
  induction l with
  | nil => simp
  | cons x xs ih =>
    cases hfx : f x <;>
      simp [List.filterMap_cons, List.countP_cons, hfx, ih]

/-- A marker line is never a section-ending line: it cannot be blank, and as
a comment it mentions "protobuf". -/
theorem marker_not_sectionEnd (t : String) (h : isMarkerTrimmed t = true) :
    isSectionEnd t = false := by
  have hinf : ("// protobuf libraries".data : List Char) <:+: (asciiLower t).data := by
    simpa [isMarkerTrimmed, containsSub] using h
  have hsub : ("protobuf".data : List Char) <:+: (asciiLower t).data := by
    refine List.IsInfix.trans ?_ hinf
    decide
  have hcp : containsSub (asciiLower t) "protobuf" = true := by
    simpa [containsSub] using hsub
  have hne : (t == "") = false := by
    rcases hbeq : (t == "") with _ | _
    · rfl
    · exfalso
      have ht : t = "" := by simpa using hbeq
      subst ht
      exact absurd h (by decide)
  simp [isSectionEnd, hne, hcp]

/-- Locating the marker skips exactly the marker-free prefix of the line
sequence. -/
theorem linesAfterMarker_append (pre : List String)
    (hpre : ∀ l ∈ pre, isMarkerTrimmed (goTrim l) = false)
    (m : String) (hm : isMarkerTrimmed (goTrim m) = true) (rest : List String) :
    linesAfterMarker (pre ++ m :: rest) = some rest := by
  induction pre with
  | nil => simp [linesAfterMarker, hm]
  | cons l ls ih =>
    have hl : isMarkerTrimmed (goTrim l) = false := hpre l (by simp)
    have hls : ∀ x ∈ ls, isMarkerTrimmed (goTrim x) = false :=
      fun x hx => hpre x (by simp [hx])
    simp [linesAfterMarker, hl, ih hls]

/-- The directive scan over a bounded section collects exactly the lines the
replace-directive pattern matches, in order, and stops at the section-ending
line. -/
theorem scanDirectives_section (ender : String) (tail : List String)
    (hend : isSectionEnd (goTrim ender) = true) :
    ∀ body : List String,
      (∀ l ∈ body, isMarkerTrimmed (goTrim l) = false ∧ isSectionEnd (goTrim l) = false) →
      scanDirectives (body ++ ender :: tail) =
        body.filterMap (fun l => parseReplaceDirective (goTrim l)) := by
  intro body
  induction body with
  | nil =>
    intro _
    have hmk : isMarkerTrimmed (goTrim ender) = false := by
      rcases h : isMarkerTrimmed (goTrim ender) with _ | _
      · rfl
      · exact absurd hend (by simp [marker_not_sectionEnd _ h])
    simp [scanDirectives, hmk, hend]
  | cons l ls ih =>
    intro hbody
    obtain ⟨hl1, hl2⟩ := hbody l (by simp)
    have hls : ∀ x ∈ ls, isMarkerTrimmed (goTrim x) = false ∧ isSectionEnd (goTrim x) = false :=
      fun x hx => hbody x (List.mem_cons_of_mem _ hx)
    cases hp : parseReplaceDirective (goTrim l) <;>
      simp [scanDirectives, hl1, hl2, hp, ih hls, List.filterMap_cons]

/-- The marker search fails exactly on marker-free line sequences. -/
theorem linesAfterMarker_eq_none_iff (lines : List String) :
    linesAfterMarker lines = none ↔ ∀ l ∈ lines, isMarkerTrimmed (goTrim l) = false := by
  induction lines with
  | nil => simp [linesAfterMarker]
  | cons l ls ih =>
    rcases h : isMarkerTrimmed (goTrim l) with _ | _
    · simp [linesAfterMarker, h, ih]
    · simp [linesAfterMarker, h]

/-! ## Orchestrator lemmas -/

/-- A dry run always produces the fixed successful result for the
repository. -/
theorem dryRunRepository_result (env : Env) (repo : Repository) (config : SyncConfig) :
    (dryRunRepository env repo config).2 =
      { repository := repo, filesUpdated := [], success := true, error := none } := by
  unfold dryRunRepository
  split
  · rfl
  · try dsimp only
    split
    · split <;> rfl
    · rfl

/-- A dry run performs no filesystem write collaborator call. -/
theorem dryRunRepository_no_write (env : Env) (repo : Repository) (config : SyncConfig) :
    ∀ e ∈ (dryRunRepository env repo config).1, isWriteCall e = false := by
  unfold dryRunRepository
  split
  · simp [isWriteCall]
  · try dsimp only
    split
    · split <;> simp [isWriteCall]
    · simp [isWriteCall]

/-- In dry-run mode, processRepository is exactly dryRunRepository. -/
theorem processRepository_dryRun (env : Env) (b : Bool) (repo : Repository)
    (config : SyncConfig) (hdry : config.dryRun = true) :
    processRepository env b repo config = dryRunRepository env repo config := by
  unfold processRepository
  simp [hdry]

/-- The result of processing a repository is always tagged with that
repository. -/
theorem processRepository_repository (env : Env) (b : Bool) (repo : Repository)
    (config : SyncConfig) :
    ((processRepository env b repo config).2).repository = repo := by
  unfold processRepository
  split
  · simp [dryRunRepository_result]
  · dsimp only
    split
    · rfl
    · split
      · rfl
      · try dsimp only
        split
        · rfl
        · split
          · rfl
          · split
            · split <;> rfl
            · split <;> rfl

/-- Invariant of every per-repository result: the success flag holds exactly
when the error field is nil. -/
theorem processRepository_success_iff (env : Env) (b : Bool) (repo : Repository)
    (config : SyncConfig) :
    ((processRepository env b repo config).2.success = true) ↔
      (processRepository env b repo config).2.error = none := by
  unfold processRepository
  split
  · simp [dryRunRepository_result]
  · dsimp only
    split
    · simp
    · split
      · simp
      · try dsimp only
        split
        · simp
        · split
          · simp
          · split
            · split <;> simp
            · split <;> simp

/-- In real mode, a repository whose context is already cancelled fails at
the download step with the context-canceled error and an empty file list. -/
theorem processRepository_cancelled (env : Env) (repo : Repository) (config : SyncConfig)
    (hdry : config.dryRun = false) :
    (processRepository env true repo config).2 =
      { repository := repo, filesUpdated := [], success := false,
        error := some "failed to download module: context canceled" } := by
  unfold processRepository
  simp [hdry]

/-- In real mode, a repository whose download fails yields the wrapped
download error and an empty file list. -/
theorem processRepository_downloadFailed (env : Env) (repo : Repository)
    (config : SyncConfig) (e : String) (hdry : config.dryRun = false)
    (hdl : env.downloadModule repo.name repo.version = Except.error e) :
    (processRepository env false repo config).2 =
      { repository := repo, filesUpdated := [], success := false,
        error := some ("failed to download module: " ++ e) } := by
  unfold processRepository
  simp [hdry, hdl]

/-- The per-source loop produces one outcome per resolved repository. -/
theorem syncLoop_length (env : Env) (cancelled : Nat → Bool) (config : SyncConfig) :
    ∀ (repos : List Repository) (i : Nat),
      ((syncLoop env cancelled config i repos).2).length = repos.length := by
  intro repos
  induction repos with
  | nil => intro i; rfl
  | cons r rest ih => intro i; simp [syncLoop, ih]

/-- The outcome at position `j` of the per-source loop started at position
`i` is the result of processing repository number `j` under the cancellation
status observed at step `i + j`. -/
theorem syncLoop_get (env : Env) (cancelled : Nat → Bool) (config : SyncConfig) :
    ∀ (repos : List Repository) (i j : Nat)
      (hj : j < ((syncLoop env cancelled config i repos).2).length)
      (hj2 : j < repos.length),
      ((syncLoop env cancelled config i repos).2).get ⟨j, hj⟩ =
        (processRepository env (cancelled (i + j)) (repos.get ⟨j, hj2⟩) config).2 := by
  intro repos
  induction repos with
  | nil => intro i j hj hj2; exact absurd hj2 (by simp)
  | cons r rest ih =>
    intro i j hj hj2
    cases j with
    | zero => simp [syncLoop]
    | succ k =>
      have hk : k < ((syncLoop env cancelled config (i + 1) rest).2).length := by
        simpa [syncLoop_length] using Nat.lt_of_succ_lt_succ hj2
      have hk2 : k < rest.length := Nat.lt_of_succ_lt_succ hj2
      have := ih (i + 1) k hk hk2
      simp only [syncLoop, List.get_cons_succ]
      rw [show i + (k + 1) = (i + 1) + k by omega]
      exact this

/-- Every outcome in the per-source loop output is the result of processing
one of the repositories. -/
theorem syncLoop_mem (env : Env) (cancelled : Nat → Bool) (config : SyncConfig) :
    ∀ (repos : List Repository) (i : Nat) (r : SyncResult),
      r ∈ (syncLoop env cancelled config i repos).2 →
      ∃ b repo, r = (processRepository env b repo config).2 := by
  intro repos
  induction repos with
  | nil => intro i r hr; exact absurd hr (by simp [syncLoop])
  | cons x rest ih =>
    intro i r hr
    simp only [syncLoop, List.mem_cons] at hr
    rcases hr with hr | hr
    · exact ⟨cancelled i, x, hr⟩
    · exact ih (i + 1) r hr

/-- In dry-run mode the per-source loop performs no write call and every
outcome is successful. -/
theorem syncLoop_dryRun (env : Env) (cancelled : Nat → Bool) (config : SyncConfig)
    (hdry : config.dryRun = true) :
    ∀ (repos : List Repository) (i : Nat),
      (∀ e ∈ (syncLoop env cancelled config i repos).1, isWriteCall e = false) ∧
      (∀ r ∈ (syncLoop env cancelled config i repos).2, r.success = true) := by
  intro repos
  induction repos with
  | nil => intro i; constructor <;> intro x hx <;> exact absurd hx (by simp [syncLoop])
  | cons x rest ih =>
    intro i
    have hd := processRepository_dryRun env (cancelled i) x config hdry
    constructor
    · intro e he
      simp only [syncLoop, List.mem_append] at he
      rcases he with he | he
      · rw [hd] at he
        exact dryRunRepository_no_write env x config e he
      · exact (ih (i + 1)).1 e he
    · intro r hr
      simp only [syncLoop, List.mem_cons] at hr
      rcases hr with hr | hr
      · rw [hr, hd, dryRunRepository_result]
      · exact (ih (i + 1)).2 r hr

/-- Config validation performs only existence queries. -/
theorem validateConfigSome_no_write (env : Env) (config : SyncConfig) :
    ∀ e ∈ (validateConfigSome env config).1, isWriteCall e = false := by
  unfold validateConfigSome
  split
  · simp
  · split
    · simp
    · split
      · simp
      · try dsimp only
        split
        · simp [isWriteCall]
        · split
          · split <;> simp [isWriteCall]
          · simp [isWriteCall]

/-- Repository-list determination performs only the go.mod parse. -/
theorem determineRepositories_no_write (env : Env) (config : SyncConfig) :
    ∀ e ∈ (determineRepositories env config).1, isWriteCall e = false := by
  unfold determineRepositories
  split <;> simp [isWriteCall]

/-- The pre-loop phase of Sync performs no filesystem write collaborator
call. -/
theorem resolveRun_no_write (env : Env) (config : SyncConfig) :
    ∀ e ∈ (resolveRun env config).1, isWriteCall e = false := by
  intro e he
  simp only [resolveRun] at he
  cases hval : (validateConfigSome env config).2 with
  | some msg =>
    simp only [hval] at he
    exact validateConfigSome_no_write env config e he
  | none =>
    simp only [hval] at he
    cases hbuf : env.parseBufYaml config.bufYamlPath with
    | error msg =>
      simp only [hbuf, List.mem_append, List.mem_singleton] at he
      rcases he with he | he
      · exact validateConfigSome_no_write env config e he
      · rw [he]; rfl
    | ok mi =>
      simp only [hbuf] at he
      cases hg : (determineRepositories env { config with targetPath := mi.path }).2 with
      | error msg =>
        simp only [hg, List.mem_append, List.mem_cons] at he
        rcases he with he | he | he
        · exact validateConfigSome_no_write env config e he
        · rw [he]; rfl
        · exact determineRepositories_no_write env _ e he
      | ok repos0 =>
        simp only [hg, List.mem_append, List.mem_cons] at he
        rcases he with he | he | he
        · exact validateConfigSome_no_write env config e he
        · rw [he]; rfl
        · exact determineRepositories_no_write env _ e he

/-- A successful pre-loop phase only rewrites the config's target path; in
particular the dry-run flag is preserved. -/
theorem resolveRun_ok_dryRun (env : Env) (config config1 : SyncConfig)
    (evs : List FsCall) (repos : List Repository)
    (h : resolveRun env config = (evs, Except.ok (config1, repos))) :
    config1.dryRun = config.dryRun := by
  simp only [resolveRun] at h
  cases hval : (validateConfigSome env config).2 with
  | some msg => simp [hval] at h
  | none =>
    cases hbuf : env.parseBufYaml config.bufYamlPath with
    | error msg => simp [hval, hbuf] at h
    | ok mi =>
      cases hg : (determineRepositories env { config with targetPath := mi.path }).2 with
      | error msg => simp [hval, hbuf, hg] at h
      | ok repos0 =>
        simp only [hval, hbuf, hg, Prod.mk.injEq, Except.ok.injEq] at h
        obtain ⟨-, h2, -⟩ := h
        rw [← h2]

/-- Projection form of `resolveRun_ok_dryRun`: only the outcome component is
needed to conclude that the dry-run flag is preserved. -/
theorem resolveRun_ok_dryRun2 (env : Env) (config config1 : SyncConfig)
    (repos : List Repository)
    (h : (resolveRun env config).2 = Except.ok (config1, repos)) :
    config1.dryRun = config.dryRun := by
  have hp : resolveRun env config = ((resolveRun env config).1, Except.ok (config1, repos)) := by
    rw [← h]
  exact resolveRun_ok_dryRun env config config1 (resolveRun env config).1 repos hp

/-- Case split on a Sync run: either the pre-loop phase fails and Sync
returns its error with the pre-loop trace, or it succeeds and Sync returns
the loop outcomes appended to the pre-loop trace. -/
theorem sync_run_split (env : Env) (cancelled : Nat → Bool) (config : SyncConfig) :
    (∃ e, (resolveRun env config).2 = Except.error e ∧
      sync env cancelled (some config) = ((resolveRun env config).1, Except.error e)) ∨
    (∃ config1 repos, (resolveRun env config).2 = Except.ok (config1, repos) ∧
      sync env cancelled (some config) =
        ((resolveRun env config).1 ++ (syncLoop env cancelled config1 0 repos).1,
         Except.ok (syncLoop env cancelled config1 0 repos).2)) := by
  cases hres : (resolveRun env config).2 with
  | error e =>
    refine Or.inl ⟨e, rfl, ?_⟩
    simp only [sync]
    rw [hres]
  | ok p =>
    obtain ⟨config1, repos⟩ := p
    refine Or.inr ⟨config1, repos, rfl, ?_⟩
    simp only [sync]
    rw [hres]

/-! ## Claim theorems -/

/-- Claim C3: for every manifest line sequence consisting of a marker-free
prefix, the marker line, a run of section lines that are neither blank nor
section-ending comments nor marker lines, and a section-ending line, the
parser returns exactly the sources of the well-formed replace-directive
lines of that run, in line order, silently skipping the malformed ones; the
number of returned sources is the count of lines matched by the directive
pattern.  Scanning stops at the section-ending line (the first blank line or
comment line not referencing "protobuf" case-insensitively): the lines after
it contribute nothing. -/
theorem parseManifestSection (pre body tail : List String) (m ender : String)
    (hpre : ∀ l ∈ pre, isMarkerTrimmed (goTrim l) = false)
    (hm : isMarkerTrimmed (goTrim m) = true)
    (hbody : ∀ l ∈ body, isMarkerTrimmed (goTrim l) = false ∧ isSectionEnd (goTrim l) = false)
    (hend : isSectionEnd (goTrim ender) = true) :
    parseProtobufLibraries (pre ++ m :: (body ++ ender :: tail)) =
      Except.ok (body.filterMap (fun l => parseReplaceDirective (goTrim l))) ∧
    (body.filterMap (fun l => parseReplaceDirective (goTrim l))).length =
      body.countP (fun l => (parseReplaceDirective (goTrim l)).isSome) := by
  constructor
  · unfold parseProtobufLibraries
    rw [linesAfterMarker_append pre hpre m hm]
    show Except.ok (scanDirectives (body ++ ender :: tail)) = _
    rw [scanDirectives_section ender tail hend body hbody]
  · exact filterMap_length_countP _ _

/-- Witness for C3: the example manifest with two well-formed directive
lines, one malformed line, a blank section-ending line and a further
directive after the blank line parses to exactly the two sources in line
order. -/
theorem parseManifestSectionWitness :
    parseProtobufLibraries
      ["module example.com/test-project", "",
       "// Protobuf libraries",
       "replace local-product-api v0.0.0 => github.com/example/product-api v0.12.0",
       "this line is malformed",
       "replace local-user-api v0.0.0 => github.com/example/user-api v0.8.5",
       "",
       "replace after-blank v0.0.0 => github.com/x/y v1.0.0"] =
      Except.ok
        [{ name := "github.com/example/product-api", version := "v0.12.0",
           url := "https://github.com/example/product-api" },
         { name := "github.com/example/user-api", version := "v0.8.5",
           url := "https://github.com/example/user-api" }] := by
  have h := parseManifestSection
    ["module example.com/test-project", ""]
    ["replace local-product-api v0.0.0 => github.com/example/product-api v0.12.0",
     "this line is malformed",
     "replace local-user-api v0.0.0 => github.com/example/user-api v0.8.5"]
    ["replace after-blank v0.0.0 => github.com/x/y v1.0.0"]
    "// Protobuf libraries" ""
    (by decide) (by decide) (by decide) (by decide)
  exact h.1

/-- Claim C4, counterexample: the claim states that any comment line
containing the phrase "Protobuf libraries" is accepted as the marker
regardless of interior spacing around the comment syntax; but the comment
line with two spaces after `//` below contains the phrase
(case-insensitively) and still the parser fails with the marker-not-found
error, because the code requires the exact substring
"// protobuf libraries" with a single interior space. -/
theorem markerToleranceCounterexample :
    hasPrefixStr (goTrim "//  Protobuf libraries") "//" = true ∧
    containsSub (asciiLower "//  Protobuf libraries") "protobuf libraries" = true ∧
    parseProtobufLibraries
      ["//  Protobuf libraries",
       "replace local-x v0.0.0 => github.com/acme/x v1.2.3"] =
      Except.error GoModError.markerNotFound := by
  refine ⟨by decide, by decide, by decide⟩

/-- Claim C4 as amended: the parser fails with the marker-not-found error
exactly when no line of the manifest contains, case-insensitively, the exact
substring "// protobuf libraries" (the phrase immediately preceded by `//`
and a single space); leading and trailing whitespace of the line and
arbitrary text around the substring are tolerated, but variant interior
spacing or other comment syntax is not. -/
theorem markerNotFoundIff (lines : List String) :
    parseProtobufLibraries lines = Except.error GoModError.markerNotFound ↔
      ∀ l ∈ lines, isMarkerTrimmed (goTrim l) = false := by
  rw [← linesAfterMarker_eq_none_iff]
  unfold parseProtobufLibraries
  cases h : linesAfterMarker lines with
  | none => simp
  | some rest => simp

/-- Claim C6: with a non-empty override version, the version override step
of Sync maps a resolved source list of any size K to a list of the same K
sources each carrying exactly the override version, with no per-source
exception, and the override is idempotent: applying it twice yields the same
list as applying it once. -/
theorem versionOverrideUniform (v : String) (repos : List Repository) (hv : v ≠ "") :
    (applyVersionOverride v repos).length = repos.length ∧
    (∀ r ∈ applyVersionOverride v repos, r.version = v) ∧
    applyVersionOverride v (applyVersionOverride v repos) = applyVersionOverride v repos := by
  have hb : (v == "") = false := by simpa using hv
  unfold applyVersionOverride
  rw [hb]
  simp only [Bool.false_eq_true, if_false]
  refine ⟨by simp, ?_, ?_⟩
  · intro r hr
    obtain ⟨x, -, hx⟩ := List.mem_map.mp hr
    rw [← hx]
  · rw [List.map_map]
    rfl

/-- Witness for C6: overriding two sample repositories with "v2.0.0". -/
theorem versionOverrideUniformWitness :
    ("v2.0.0" : String) ≠ "" ∧
    ((applyVersionOverride "v2.0.0" [repoOne, repoTwo]).length = 2 ∧
      (∀ r ∈ applyVersionOverride "v2.0.0" [repoOne, repoTwo], r.version = "v2.0.0") ∧
      applyVersionOverride "v2.0.0" (applyVersionOverride "v2.0.0" [repoOne, repoTwo]) =
        applyVersionOverride "v2.0.0" [repoOne, repoTwo]) :=
  ⟨by decide, versionOverrideUniform "v2.0.0" [repoOne, repoTwo] (by decide)⟩

/-- Claim C9: ValidateConfig on a nil configuration returns the
"config cannot be nil" error without consulting any collaborator (empty
trace), and consequently Sync on a nil configuration returns the wrapped
configuration error, also with an empty collaborator trace. -/
theorem syncNilConfigRejected (env : Env) (cancelled : Nat → Bool) :
    validateConfig env none = ([], some "config cannot be nil") ∧
    sync env cancelled none = ([], Except.error "invalid configuration: config cannot be nil") :=
  ⟨rfl, rfl⟩

/-- Claim C10: a well-formed directive line whose remote path lacks the
`github.com/` prefix still yields a source whose name is `github.com/`
prepended to the unmodified remote path and whose URL is
`https://github.com/` plus that path. -/
theorem nonGithubRemotePathCanonicalized (line : String) (a b c d : List Char)
    (hm : matchReplaceChars (goTrim line).data = some (a, b, c, d))
    (hpre : hasPrefixStr (String.mk c) "github.com/" = false) :
    parseReplaceDirective (goTrim line) =
      some { name := "github.com/" ++ String.mk c, version := String.mk d,
             url := "https://github.com/" ++ String.mk c } := by
  unfold parseReplaceDirective
  rw [hm]
  simp [mkRepository, trimPrefixStr, hpre]

/-- Witness for C10: the remote path `gitlab.com/org/x` becomes the source
name `github.com/gitlab.com/org/x` with URL
`https://github.com/gitlab.com/org/x`. -/
theorem nonGithubRemotePathWitness :
    hasPrefixStr "gitlab.com/org/x" "github.com/" = false ∧
    parseReplaceDirective (goTrim "replace local-x v0.0.0 => gitlab.com/org/x v1.0.0") =
      some { name := "github.com/gitlab.com/org/x", version := "v1.0.0",
             url := "https://github.com/gitlab.com/org/x" } := by
  refine ⟨by decide, ?_⟩
  have h := nonGithubRemotePathCanonicalized
    "replace local-x v0.0.0 => gitlab.com/org/x v1.0.0"
    ("local-x".data) ("v0.0.0".data) ("gitlab.com/org/x".data) ("v1.0.0".data)
    (by decide) (by decide)
  exact h.trans (by decide)

/-- Claim C1, counterexample: with a cancellation signal observed after the
first source and before the second one starts (`cancelAfterFirst`), the
claim predicts that Sync stops processing further sources and returns the
partial outcome list gathered so far — here the one-element list containing
only the first source's outcome.  Instead, Sync processes the second source
as well (its download fails under the cancelled context) and returns a
two-element outcome list, so the returned value is not the partial list. -/
theorem syncCancellationCounterexample :
    (sync envAll cancelAfterFirst (some cfgTwo)).2 = Except.ok [resOkOne, resCancelTwo] ∧
    (sync envAll cancelAfterFirst (some cfgTwo)).2 ≠ Except.ok [resOkOne] := by
  refine ⟨by decide, by decide⟩

/-- Claim C1 as amended: the per-source loop of Sync never consults the
cancellation signal, so cancellation never shortens the outcome list: a run
that returns an outcome list returns one of the same length as the fully
uncancelled run; in real (non-dry-run) mode every source whose download step
runs under an already-cancelled context contributes a failed outcome carrying
the wrapped context-canceled download error, rather than being skipped. -/
theorem syncCancellationContinues (env : Env) (cancelled : Nat → Bool)
    (config : SyncConfig) (rs : List SyncResult)
    (h : (sync env cancelled (some config)).2 = Except.ok rs) :
    (∃ rs2, (sync env (fun _ => false) (some config)).2 = Except.ok rs2 ∧
        rs2.length = rs.length) ∧
    ∀ i, (hi : i < rs.length) → config.dryRun = false → cancelled i = true →
      (rs.get ⟨i, hi⟩).success = false ∧
      (rs.get ⟨i, hi⟩).error = some "failed to download module: context canceled" := by
  rcases sync_run_split env cancelled config with ⟨e, -, heq⟩ | ⟨config1, repos, hres, heq⟩
  · rw [heq] at h
    exact absurd h (by simp)
  · rw [heq] at h
    simp only [Except.ok.injEq] at h
    constructor
    · rcases sync_run_split env (fun _ => false) config with
        ⟨e2, hres2, -⟩ | ⟨c1b, rpb, hres2, heq2⟩
      · rw [hres] at hres2
        exact absurd hres2 (by simp)
      · rw [hres] at hres2
        obtain ⟨hc1, hrp⟩ := Prod.mk.injEq .. ▸ Except.ok.inj hres2
        subst hc1
        subst hrp
        refine ⟨(syncLoop env (fun _ => false) config1 0 repos).2, by rw [heq2], ?_⟩
        rw [← h]
        simp [syncLoop_length]
    · intro i hi hdry hci
      have hdry1 : config1.dryRun = false := by
        rw [resolveRun_ok_dryRun2 env config config1 repos hres]
        exact hdry
      have hi2 : i < repos.length := by
        have hx := hi
        rw [← h, syncLoop_length] at hx
        exact hx
      have hiL : i < ((syncLoop env cancelled config1 0 repos).2).length := by
        rw [syncLoop_length]
        exact hi2
      have hget := syncLoop_get env cancelled config1 repos 0 i hiL hi2
      have hrs : rs.get ⟨i, hi⟩ = ((syncLoop env cancelled config1 0 repos).2).get ⟨i, hiL⟩ :=
        List.get_of_eq (by rw [← h]) ⟨i, hi⟩
      rw [hrs, hget, Nat.zero_add, hci,
        processRepository_cancelled env (repos.get ⟨i, hi2⟩) config1 hdry1]
      exact ⟨rfl, rfl⟩

/-- Witness for the amended C1: the concrete cancelled run returns a
two-element outcome list, the uncancelled run has the same length, and the
second (cancelled) outcome is the download failure. -/
theorem syncCancellationContinuesWitness :
    (sync envAll cancelAfterFirst (some cfgTwo)).2 = Except.ok [resOkOne, resCancelTwo] ∧
    ((∃ rs2, (sync envAll (fun _ => false) (some cfgTwo)).2 = Except.ok rs2 ∧
        rs2.length = [resOkOne, resCancelTwo].length) ∧
      ∀ i, (hi : i < [resOkOne, resCancelTwo].length) →
        cfgTwo.dryRun = false → cancelAfterFirst i = true →
        ([resOkOne, resCancelTwo].get ⟨i, hi⟩).success = false ∧
        ([resOkOne, resCancelTwo].get ⟨i, hi⟩).error =
          some "failed to download module: context canceled") :=
  ⟨by decide, syncCancellationContinues envAll cancelAfterFirst cfgTwo _ (by decide)⟩

/-- Claim C2: in dry-run mode, Sync invokes no filesystem write collaborator
method (CopyFile, WriteFile, CreateDir, MakeWritable) anywhere in its
collaborator trace, and whenever it returns an outcome list, every entry has
`success = true`. -/
theorem syncDryRunSafe (env : Env) (cancelled : Nat → Bool) (config : SyncConfig)
    (hdry : config.dryRun = true) :
    (∀ e ∈ (sync env cancelled (some config)).1, isWriteCall e = false) ∧
    ∀ rs, (sync env cancelled (some config)).2 = Except.ok rs →
      ∀ r ∈ rs, r.success = true := by
  simp only [sync]
  cases hres : (resolveRun env config).2 with
  | error e =>
    constructor
    · intro ev hev
      exact resolveRun_no_write env config ev hev
    · intro rs h
      simp at h
  | ok p =>
    obtain ⟨config1, repos⟩ := p
    have hdry1 : config1.dryRun = true := by
      rw [resolveRun_ok_dryRun2 env config config1 repos hres]
      exact hdry
    constructor
    · intro ev hev
      dsimp only at hev
      rcases List.mem_append.mp hev with hev | hev
      · exact resolveRun_no_write env config ev hev
      · exact (syncLoop_dryRun env cancelled config1 hdry1 repos 0).1 ev hev
    · intro rs h
      dsimp only at h
      simp only [Except.ok.injEq] at h
      intro r hr
      rw [← h] at hr
      exact (syncLoop_dryRun env cancelled config1 hdry1 repos 0).2 r hr

/-- Witness for C2: the concrete dry run performs no write call and its
outcome list is all-successful. -/
theorem syncDryRunSafeWitness :
    cfgDry.dryRun = true ∧
    ((∀ e ∈ (sync envAll cancelAfterFirst (some cfgDry)).1, isWriteCall e = false) ∧
      ∀ rs, (sync envAll cancelAfterFirst (some cfgDry)).2 = Except.ok rs →
        ∀ r ∈ rs, r.success = true) :=
  ⟨rfl, syncDryRunSafe envAll cancelAfterFirst cfgDry rfl⟩

/-- Claim C5: when the pre-loop phase resolves exactly two sources, the
first source's processing succeeds and the second source's download fails
(under an uncancelled context), Sync still returns — without aborting — a
two-element outcome list in resolved order: the first entry is the first
source's successful result and the second entry is a failed outcome for the
second source carrying the wrapped download error. -/
theorem syncPartialFailureIsolation (env : Env) (cancelled : Nat → Bool)
    (config config1 : SyncConfig) (r1 r2 : Repository) (e : String)
    (hres : (resolveRun env config).2 = Except.ok (config1, [r1, r2]))
    (hdry : config1.dryRun = false)
    (hc0 : cancelled 0 = false) (hc1 : cancelled 1 = false)
    (hfirst : (processRepository env false r1 config1).2.success = true)
    (hdl : env.downloadModule r2.name r2.version = Except.error e) :
    (sync env cancelled (some config)).2 =
      Except.ok [(processRepository env false r1 config1).2,
        { repository := r2, filesUpdated := [], success := false,
          error := some ("failed to download module: " ++ e) }] ∧
    (processRepository env false r1 config1).2.success = true ∧
    (processRepository env false r1 config1).2.repository = r1 := by
  refine ⟨?_, hfirst, processRepository_repository env false r1 config1⟩
  simp only [sync]
  rw [hres]
  dsimp only
  simp only [syncLoop, hc0, hc1]
  rw [processRepository_downloadFailed env r2 config1 e hdry hdl]

/-- Witness for C5: under `envTwoDown` the first repository succeeds, the
second repository's download fails with "network unreachable", and Sync
returns both outcomes in order. -/
theorem syncPartialFailureIsolationWitness :
    (resolveRun envTwoDown cfgTwo).2 =
      Except.ok ({ cfgTwo with targetPath := "out" }, [repoOne, repoTwo]) ∧
    ((sync envTwoDown (fun _ => false) (some cfgTwo)).2 =
      Except.ok [(processRepository envTwoDown false repoOne
          { cfgTwo with targetPath := "out" }).2,
        { repository := repoTwo, filesUpdated := [], success := false,
          error := some ("failed to download module: " ++ "network unreachable") }] ∧
      (processRepository envTwoDown false repoOne
        { cfgTwo with targetPath := "out" }).2.success = true ∧
      (processRepository envTwoDown false repoOne
        { cfgTwo with targetPath := "out" }).2.repository = repoOne) :=
  ⟨by decide,
   syncPartialFailureIsolation envTwoDown (fun _ => false) cfgTwo
     { cfgTwo with targetPath := "out" } repoOne repoTwo "network unreachable"
     (by decide) rfl rfl rfl (by decide) rfl⟩

/-- Claim C7: in real mode with a specific file requested that is absent
from the source subdirectory, the source's outcome has `success = false`, an
empty `filesUpdated` list, and a failure message naming the requested file
(as part of its full source path) and enumerating the names of all files in
that directory matching the `*.proto` pattern as reported by the listing
collaborator. -/
theorem specificFileMissingOutcome (env : Env) (repo : Repository)
    (config : SyncConfig) (modulePath : String)
    (hdry : config.dryRun = false)
    (hsf : config.specificFile ≠ "")
    (hdl : env.downloadModule repo.name repo.version = Except.ok ())
    (hmp : env.getModulePath repo.name repo.version = Except.ok modulePath)
    (hsrc : env.fileExists (joinPath modulePath config.sourcePath) = true)
    (htgt : env.fileExists config.targetPath = true)
    (hmiss : env.fileExists
      (joinPath (joinPath modulePath config.sourcePath) config.specificFile) = false) :
    (processRepository env false repo config).2 =
      { repository := repo, filesUpdated := [], success := false,
        error := some ("specific proto file not found: " ++
          joinPath (joinPath modulePath config.sourcePath) config.specificFile ++
          "\nAvailable proto files: " ++
          String.intercalate ", "
            ((listFilesOrNil env (joinPath modulePath config.sourcePath) "*.proto").map
              ProtoFile.name)) } := by
  have hsf2 : (config.specificFile != "") = true := by
    simpa using hsf
  unfold processRepository copySpecificFile
  simp [hdry, hdl, hmp, hsrc, htgt, hmiss, hsf2]

/-- Witness for C7: requesting `c.proto` under `envMissing` (which knows
only `a.proto` and `b.proto`) fails with the enumerating message and an
empty file list. -/
theorem specificFileMissingOutcomeWitness :
    envMissing.fileExists "cache/github.com/acme/one@v1.0.0/schemas/c.proto" = false ∧
    (processRepository envMissing false repoOne
        { cfgTwo with targetPath := "out", specificFile := "c.proto" }).2 =
      { repository := repoOne, filesUpdated := [], success := false,
        error := some
          ("specific proto file not found: cache/github.com/acme/one@v1.0.0/schemas/c.proto" ++
            "\nAvailable proto files: a.proto, b.proto") } := by
  refine ⟨by decide, ?_⟩
  have h := specificFileMissingOutcome envMissing repoOne
    { cfgTwo with targetPath := "out", specificFile := "c.proto" }
    "cache/github.com/acme/one@v1.0.0"
    rfl (by decide) rfl rfl (by decide) (by decide) (by decide)
  exact h.trans (by decide)

/-- Claim C8: every outcome in a list returned by Sync — dry-run or real —
has `success = true` exactly when its error field is nil. -/
theorem syncSuccessIffErrorNone (env : Env) (cancelled : Nat → Bool)
    (configOpt : Option SyncConfig) (rs : List SyncResult)
    (h : (sync env cancelled configOpt).2 = Except.ok rs) :
    ∀ r ∈ rs, (r.success = true ↔ r.error = none) := by
  cases configOpt with
  | none => simp [sync] at h
  | some config =>
    simp only [sync] at h
    cases hres : (resolveRun env config).2 with
    | error e =>
      rw [hres] at h
      simp at h
    | ok p =>
      obtain ⟨config1, repos⟩ := p
      rw [hres] at h
      dsimp only at h
      simp only [Except.ok.injEq] at h
      intro r hr
      rw [← h] at hr
      obtain ⟨b, repo, hrepo⟩ := syncLoop_mem env cancelled config1 repos 0 r hr
      rw [hrepo]
      exact processRepository_success_iff env b repo config1

/-- Witness for C8: the invariant evaluated at the failed outcome of the
concrete mixed success/failure run of `envTwoDown`. -/
theorem syncSuccessIffErrorNoneWitness :
    ({ repository := repoTwo, filesUpdated := [], success := false,
       error := some "failed to download module: network unreachable" } :
        SyncResult).success = true ↔
    ({ repository := repoTwo, filesUpdated := [], success := false,
       error := some "failed to download module: network unreachable" } :
        SyncResult).error = none :=
  syncSuccessIffErrorNone envTwoDown (fun _ => false) (some cfgTwo)
    [resOkOne,
     { repository := repoTwo, filesUpdated := [], success := false,
       error := some "failed to download module: network unreachable" }]
    (by decide)
    { repository := repoTwo, filesUpdated := [], success := false,
      error := some "failed to download module: network unreachable" }
    (by decide)

end ProtoSync
